import Mathlib

/-
Verification of the tessera layout core against its specification.

Machine integers: Rust `i32` arithmetic is modelled on `Int` with an explicit
two's-complement wrap (`wrap32`), matching release-mode semantics of the `Px`
newtype operators in src/tessera/src/px.rs.  `f32` quantities that only feed
exact computations (animation progress hitting 0 and 1, Dp at scale factor 1)
are modelled as rationals.
-/

namespace Tessera

/-- Two's-complement wrap to the `i32` range, release-mode Rust semantics
for the arithmetic operators on `Px(pub i32)`. -/
def wrap32 (x : Int) : Int := (x + 2 ^ 31) % 2 ^ 32 - 2 ^ 31

/-- `impl Sub for Px` (src/tessera/src/px.rs): plain `i32` subtraction. -/
def pxSub (a b : Int) : Int := wrap32 (a - b)

/-- `impl Add for Px` (src/tessera/src/px.rs): plain `i32` addition. -/
def pxAdd (a b : Int) : Int := wrap32 (a + b)

/-- `impl Mul<i32> for Px` (src/tessera/src/px.rs): plain `i32` multiplication. -/
def pxMulI (a k : Int) : Int := wrap32 (a * k)

/-- Truncating (toward zero) integer division, the `i32` `/` used by
`impl Div<i32> for Px`. -/
def tdiv (a b : Int) : Int := a.sign * b.sign * ((a.natAbs / b.natAbs : Nat) : Int)

/-- `impl Div<i32> for Px` (src/tessera/src/px.rs). -/
def pxDivI (a k : Int) : Int := wrap32 (tdiv a k)

/-- `Px::abs` (src/tessera/src/px.rs lines 34-37): `self.0.max(0) as u32`. -/
def pxAbs (p : Int) : Nat := (max p 0).toNat

theorem wrap32_eq_self (x : Int) (h1 : -(2 ^ 31) ≤ x) (h2 : x < 2 ^ 31) :
    wrap32 x = x := by
  unfold wrap32
  omega

/-- `DimensionValue` (data model, spec paragraph 3): `Fixed(length)`,
`Wrap{min,max}`, `Fill{min,max}` over physical-pixel lengths. -/
inductive DimensionValue where
  | Fixed (v : Int)
  | Wrap (min max : Option Int)
  | Fill (min max : Option Int)
  deriving DecidableEq, Repr

/-- The bound a parent-offered constraint supplies to a `Wrap` merge: a
`Fixed` or a bounded `Fill`/`Wrap` becomes an upper bound. -/
def parentBound (p : DimensionValue) : Option Int :=
  match p with
  | .Fixed v => some v
  | .Wrap _ mx => mx
  | .Fill _ mx => mx

/-- Tighter of two optional upper bounds. -/
def optTighter (a b : Option Int) : Option Int :=
  match a, b with
  | some x, some y => some (min x y)
  | some x, none => some x
  | none, some y => some y
  | none, none => none

/-- The concrete bound a parent-offered constraint provides to a `Fill`
merge: the parent's `Fixed` value, or the parent's `Fill` max, in that
priority.  This is also literally the `parent_provided_width` /
`parent_provided_height` match in
src/tessera_basic_components/src/surface.rs lines 86-92 and 120-126. -/
def fillParentBound (p : DimensionValue) : Option Int :=
  match p with
  | .Fixed v => some v
  | .Fill _ mx => mx
  | _ => none

/-- Modelled from the spec: `DimensionValue` merge (spec 4.1); the
implementation (component_tree) is not among the provided source files.
Per axis, own constraint `A` against parent-offered `P`:
`Fixed(a)` stays `Fixed(a)` regardless of `P`; `Wrap{min,max}` keeps `min`
and tightens `max` with whatever bound `P` supplies; `Fill{min,max}` takes
the parent's `Fixed` value or `Fill` max (in that priority) as an exact
length, and degenerates to `Wrap{min,max}` when `P` offers no such bound. -/
def DimensionValue.merge (a p : DimensionValue) : DimensionValue :=
  match a with
  | .Fixed v => .Fixed v
  | .Wrap mn mx => .Wrap mn (optTighter mx (parentBound p))
  | .Fill mn mx =>
    match fillParentBound p with
    | some b => .Fixed b
    | none => .Wrap mn mx

/-- `Constraint` : a width/height pair of `DimensionValue`s. -/
structure Constraint where
  width : DimensionValue
  height : DimensionValue
  deriving DecidableEq, Repr

/-- Modelled from the spec: pairwise merge of constraints, per axis
independently (spec 4.1); implementation not among the provided sources. -/
def Constraint.merge (a p : Constraint) : Constraint :=
  ⟨a.width.merge p.width, a.height.merge p.height⟩

/-- `ComputedData` : a resolved size. -/
structure ComputedData where
  width : Int
  height : Int
  deriving DecidableEq, Repr

/-- Child-constraint computation of the `surface` component
(src/tessera_basic_components/src/surface.rs lines 72-139), one axis.
`padding2` is `padding_px * 2`; `parentAxis` is the constraint the
surface's parent offered (`input.effective_constraint`), `effAxis` the
surface's merged effective constraint on that axis. -/
def childConstraintAxis (padding2 : Int) (parentAxis effAxis : DimensionValue) :
    DimensionValue :=
  match effAxis with
  | .Fixed sw => .Fixed (max (pxSub sw padding2) 0)
  | .Wrap mn mx =>
      .Wrap (mn.map fun m => max (pxSub m padding2) 0)
        (mx.map fun m => max (pxSub m padding2) 0)
  | .Fill _ mx =>
      match fillParentBound parentAxis with
      | some ppw => .Fixed (max (pxSub ppw padding2) 0)
      | none => .Wrap none (mx.map fun m => max (pxSub m padding2) 0)

/-- Final surface length on one axis before the trailing non-negativity
clamp (src/tessera_basic_components/src/surface.rs lines 177-225).
`contentWithPadding` is the child's measured length plus `padding_2_px`. -/
def finalAxisLen (contentWithPadding : Int) (eff : DimensionValue) : Int :=
  match eff with
  | .Fixed s => s
  | .Wrap mn mx =>
      let v := contentWithPadding
      let v := match mn with | some m => max v m | none => v
      match mx with | some m => min v m | none => v
  | .Fill mn mx =>
      let v := match mx with | some m => m | none => contentWithPadding
      match mn with | some m => max v m | none => v

/-- Final surface length on one axis, with the `.max(Px(0))` applied to the
returned `ComputedData` (surface.rs lines 246-249). -/
def finalAxis (contentWithPadding : Int) (eff : DimensionValue) : Int :=
  max (finalAxisLen contentWithPadding eff) 0

/-- The `surface` measurement pipeline on one axis: merge the intrinsic
constraint with the parent-offered one, derive the child constraint, and
resolve the surface's own final length given the child's measured length
(surface.rs lines 50-250; width and height are handled symmetrically and
independently in the source). -/
def surfaceAxis (paddingPx : Int) (intrinsicAxis parentAxis : DimensionValue)
    (childLen : Int) : DimensionValue × Int :=
  let padding2 := pxMulI paddingPx 2
  let eff := intrinsicAxis.merge parentAxis
  (childConstraintAxis padding2 parentAxis eff,
   finalAxis (pxAdd childLen padding2) eff)

/-- The `surface` measurement pipeline on both axes: the constraint offered
to the child and the surface's own resolved size, as functions of the
intrinsic constraint, the parent-offered constraint, the padding in
physical pixels and the child's measured size. -/
def surfaceMeasure (paddingPx : Int) (intrinsic parent : Constraint)
    (childSize : ComputedData) : Constraint × ComputedData :=
  let w := surfaceAxis paddingPx intrinsic.width parent.width childSize.width
  let h := surfaceAxis paddingPx intrinsic.height parent.height childSize.height
  (⟨w.1, h.1⟩, ⟨w.2, h.2⟩)

/-- All lengths mentioned by a `DimensionValue` are non-negative. -/
def dvNonneg (d : DimensionValue) : Bool :=
  match d with
  | .Fixed v => decide (0 ≤ v)
  | .Wrap mn mx =>
      (mn.all fun m => decide (0 ≤ m)) && (mx.all fun m => decide (0 ≤ m))
  | .Fill mn mx =>
      (mn.all fun m => decide (0 ≤ m)) && (mx.all fun m => decide (0 ≤ m))

/-- Modelled from the spec: cursor event payloads (spec section 6); the
`CursorEventContent` enum (cursor.rs) is not among the provided source
files.  Content is pointer-moved(position), pointer-left, pressed(button),
released(button) or scrolled(delta). -/
inductive PressKeyEventType where
  | Left
  | Right
  | Middle
  deriving DecidableEq, Repr

inductive CursorEventContent where
  | PointerMoved (x y : Int)
  | PointerLeft
  | Pressed (k : PressKeyEventType)
  | Released (k : PressKeyEventType)
  | Scrolled (dx dy : Int)
  deriving DecidableEq, Repr

/-- A cursor event: `{timestamp, content}`; the `Instant` timestamp is
modelled in integer milliseconds. -/
structure CursorEvent where
  timestampMs : Int
  content : CursorEventContent
  deriving DecidableEq, Repr

/-- The predicate the switch component filters cursor events with
(src/tessera_basic_components/src/switch.rs lines 121-130):
`matches!(content, Pressed(Left))`. -/
def isLeftPress (e : CursorEvent) : Bool :=
  match e.content with
  | .Pressed .Left => true
  | _ => false

/-- Modelled from the spec: the per-frame cursor event queue of
`CursorState` (cursor.rs is not among the provided source files); events
are captured once per frame and drained, not peeked, by the dispatch pass
(spec section 3); `renderer.rs` lines 233-242 call `take_events` once per
frame and pass the result to `compute`. -/
structure CursorQueue where
  events : List CursorEvent
  deriving DecidableEq, Repr

/-- Modelled from the spec: platform input appends to the queue
(`push_event`, called from `renderer.rs` window-event arms). -/
def CursorQueue.pushEvent (s : CursorQueue) (e : CursorEvent) : CursorQueue :=
  ⟨s.events ++ [e]⟩

/-- Modelled from the spec: `take_events` drains the queue, returning the
captured events and leaving the queue empty. -/
def CursorQueue.takeEvents (s : CursorQueue) : List CursorEvent × CursorQueue :=
  (s.events, ⟨[]⟩)

def CursorQueue.pushAll (s : CursorQueue) (es : List CursorEvent) : CursorQueue :=
  es.foldl CursorQueue.pushEvent s

/-- `SwitchState` (src/tessera_basic_components/src/switch.rs lines 18-22):
`checked`, animation `progress` (an `f32`, modelled as a rational) and
`last_toggle_time` (an `Instant`, modelled in integer-valued rational
milliseconds). -/
structure SwitchState where
  checked : Bool
  progress : ℚ
  lastToggleTimeMs : Option ℚ
  deriving DecidableEq, Repr

/-- `ANIMATION_DURATION` (switch.rs line 15): 150 milliseconds. -/
def animationDurationMs : ℚ := 150

/-- The animation-progress update the switch state handler performs
(switch.rs lines 104-119): when a toggle time is recorded, progress is
recomputed from the elapsed wall-clock time; the rest of the state is
untouched. -/
def switchUpdatedState (st : SwitchState) (nowMs : ℚ) : SwitchState :=
  match st.lastToggleTimeMs with
  | some t =>
      let animationFraction := min ((nowMs - t) / animationDurationMs) 1
      { st with
          progress := if st.checked then animationFraction
                      else 1 - animationFraction }
  | none => st

/-- The toggle intents the switch state handler emits (switch.rs lines
121-135): count the frame's `Pressed(Left)` cursor events; if any,
invoke `on_toggle(!checked)` exactly once. -/
def switchToggleCalls (checked : Bool) (cursorEvents : List CursorEvent) :
    List Bool :=
  let clicks := (cursorEvents.filter isLeftPress).length
  if 0 < clicks then [!checked] else []

/-- The switch component's state handler (switch.rs lines 103-136) as a
function of everything a state handler receives for the frame.  The
handler body reads only the shared state, the clock and the cursor event
sequence; the cursor position and the keyboard events are received but
unused (no hit-testing).  Returns the updated shared state and the list
of `on_toggle` invocation arguments. -/
def switchStateHandler (checked : Bool) (stateOpt : Option SwitchState)
    (nowMs : ℚ) (cursorPos : Option (Int × Int))
    (cursorEvents : List CursorEvent) (keyboardEvents : List Int) :
    Option SwitchState × List Bool :=
  (stateOpt.map fun st => switchUpdatedState st nowMs,
   switchToggleCalls checked cursorEvents)

/-- The switch component's scalar arguments, in physical pixels at scale
factor 1 (switch.rs `SwitchArgs`: width, height, thumb padding; the colors
are constants of the closure and carried by `trackChecked` below). -/
structure SwitchArgsM where
  checked : Bool
  widthPx : Int
  heightPx : Int
  thumbPaddingPx : Int
  deriving DecidableEq, Repr

/-- `thumb_size = height - 2 * thumb_padding` (switch.rs line 85). -/
def switchThumbSizePx (args : SwitchArgsM) : Int :=
  args.heightPx - 2 * args.thumbPaddingPx

/-- The observable draw output of one switch frame: which track color was
chosen, the track geometry (the switch's own size) and the thumb's
position and size.  Two frames draw bit-identically iff these agree. -/
structure SwitchDrawStream where
  trackChecked : Bool
  thumbX : Int
  thumbY : Int
  thumbW : Int
  thumbH : Int
  selfW : Int
  selfH : Int
  deriving DecidableEq, Repr

/-- Truncation toward zero of a rational, the `as i32` cast applied to the
`f32` thumb x-coordinate (switch.rs line 171). -/
def ratTruncToInt (q : ℚ) : Int := q.num.sign * ((q.num.natAbs / q.den : Nat) : Int)

/-- The switch measurement pass (switch.rs lines 138-193): measure the
thumb (a `surface` with `Fixed(thumb_size)` on both axes and no child)
under `Wrap{None,None}`, read the animation progress (or its
checked-derived default), interpolate the thumb's x position, center it
vertically, emit the track rectangle and return the switch's own fixed
size. -/
def switchMeasureStream (args : SwitchArgsM) (stateOpt : Option SwitchState) :
    SwitchDrawStream :=
  let ts := switchThumbSizePx args
  let thumbMeasured :=
    (surfaceMeasure 0 ⟨.Fixed ts, .Fixed ts⟩ ⟨.Wrap none none, .Wrap none none⟩
      ⟨0, 0⟩).2
  let progress := (stateOpt.map fun st => st.progress).getD
    (if args.checked then 1 else 0)
  let startX := args.thumbPaddingPx
  let endX := pxSub (pxSub args.widthPx thumbMeasured.width) args.thumbPaddingPx
  let thumbX := ratTruncToInt
    ((startX : ℚ) + ((endX : ℚ) - (startX : ℚ)) * progress)
  let thumbY := pxDivI (pxSub args.heightPx thumbMeasured.height) 2
  { trackChecked := args.checked
    thumbX := thumbX
    thumbY := thumbY
    thumbW := thumbMeasured.width
    thumbH := thumbMeasured.height
    selfW := args.widthPx
    selfH := args.heightPx }

/-- Modelled from the spec: one `compute` frame for a tree holding a single
switch (the `compute` driver in component_tree is not among the provided
source files; spec section 2 fixes its phase order as dispatch before
measurement).  Inputs are the frame's cursor position, cursor events and
keyboard events together with the shared cross-frame state and the
wall-clock time the handlers observe; outputs are the draw stream, the
updated shared state and the emitted toggle intents. -/
def switchFrame (args : SwitchArgsM) (stateOpt : Option SwitchState)
    (nowMs : ℚ) (cursorPos : Option (Int × Int))
    (cursorEvents : List CursorEvent) (keyboardEvents : List Int) :
    SwitchDrawStream × Option SwitchState × List Bool :=
  let dispatched :=
    switchStateHandler args.checked stateOpt nowMs cursorPos cursorEvents
      keyboardEvents
  (switchMeasureStream args dispatched.1, dispatched.1, dispatched.2)

/-- A concrete switch configuration (the default `SwitchArgs`: width 52,
height 32, thumb padding 3, at scale factor 1) mid-animation: toggled to
checked at time 0. -/
def switchArgsAt0 : SwitchArgsM :=
  { checked := true, widthPx := 52, heightPx := 32, thumbPaddingPx := 3 }

def switchStateAt0 : SwitchState :=
  { checked := true, progress := 0, lastToggleTimeMs := some 0 }

/-- `MeasurementError` (the two failure kinds of spec section 7, as named
by the uses in src/tessera_basic_components/src/surface.rs lines 149 and
160). -/
inductive MeasurementError where
  | ChildMeasurementFailed (childId : Nat)
  | MeasureFnFailed (msg : String)
  deriving DecidableEq, Repr

/-- The upper length bound the text component extracts from a
parent-constraint axis (src/tessera_basic_components/src/text.rs lines
69-79): the `Fixed` value, or the `max` of a `Wrap` or `Fill`. -/
def textMaxLen (axis : DimensionValue) : Option Int :=
  match axis with
  | .Fixed w => some w
  | .Wrap _ mx => mx
  | .Fill _ mx => mx

/-- The text component's measurement callback (text.rs lines 66-113).
Text shaping (`TextData::new`, the out-of-scope glyph rasterization
collaborator) is an opaque parameter `shaper` from the text string and the
two optional bounds to a measured size.  The callback extracts the bounds,
shapes, records the drawable and returns `Ok` of the shaped size; it has
no error path. -/
def textMeasure (shaper : String → Option Int → Option Int → Int × Int)
    (parentConstraint : Constraint) (txt : String) :
    Except MeasurementError ComputedData :=
  let maxW := textMaxLen parentConstraint.width
  let maxH := textMaxLen parentConstraint.height
  let size := shaper txt maxW maxH
  Except.ok ⟨size.1, size.2⟩

end Tessera

namespace Tessera

/-- Claim C1: merging an own constraint `Fixed(a)` with any parent-offered
constraint yields an effective constraint of length exactly `a`, and a
surface whose effective constraint on an axis is `Fixed(sw)` (with `sw`
non-negative, constraints being non-negative by the data-model invariant)
resolves its final size on that axis to exactly `sw`, regardless of its
child's measured length, its padding, or the parent-offered constraint. -/
theorem fixed_constraint_always_exact (a : Int) (p : DimensionValue)
    (paddingPx childLen sw : Int) :
    (DimensionValue.Fixed a).merge p = .Fixed a ∧
    (0 ≤ sw → (surfaceAxis paddingPx (.Fixed sw) p childLen).2 = sw) := by
  refine ⟨rfl, fun hsw => ?_⟩
  simp [surfaceAxis, DimensionValue.merge, finalAxis, finalAxisLen, max_eq_left hsw]

theorem fixed_constraint_always_exact_witness :
    (surfaceAxis 3 (.Fixed 7) (.Fill none (some 9)) 123).2 = 7 :=
  (fixed_constraint_always_exact 7 (.Fill none (some 9)) 3 123 7).2 (by decide)

/-- Claim C2: merging an own `Fill{min,max}` against a parent offering
`Fixed(p)` yields the effective constraint `Fixed(p)`; concretely, a surface
with a `Fill` intrinsic constraint under a parent offering `Fixed(pw)`
offers its child `Fixed(max(pw - 2*padding, 0))` and takes the full
parent-provided length `pw` itself (for inputs in the valid `i32` length
range, where the wrapping `i32` arithmetic is exact). -/
theorem fill_takes_fixed_parent (mn mx : Option Int)
    (pw paddingPx childLen : Int) :
    (DimensionValue.Fill mn mx).merge (.Fixed pw) = .Fixed pw ∧
    (0 ≤ pw → pw < 2 ^ 31 → 0 ≤ paddingPx → 2 * paddingPx < 2 ^ 31 →
      surfaceAxis paddingPx (.Fill mn mx) (.Fixed pw) childLen
        = (.Fixed (max (pw - 2 * paddingPx) 0), pw)) := by
  refine ⟨rfl, fun h1 h2 h3 h4 => ?_⟩
  have hp2 : pxMulI paddingPx 2 = 2 * paddingPx := by
    unfold pxMulI
    rw [wrap32_eq_self (paddingPx * 2) (by omega) (by omega)]
    ring
  have hsub : pxSub pw (2 * paddingPx) = pw - 2 * paddingPx := by
    unfold pxSub
    exact wrap32_eq_self _ (by omega) (by omega)
  simp [surfaceAxis, DimensionValue.merge, fillParentBound, childConstraintAxis,
    hp2, hsub, finalAxis, finalAxisLen, max_eq_left h1]

theorem fill_takes_fixed_parent_witness :
    surfaceAxis 10 (.Fill none none) (.Fixed 400) 5
      = (.Fixed (max (400 - 2 * 10) 0), 400) :=
  (fill_takes_fixed_parent none none 400 10 5).2 (by decide) (by decide)
    (by decide) (by decide)

/-- Claim C3: an own `Fill{min,max}` merged against a parent supplying no
bound at all (`Wrap{None,None}`) degenerates to `Wrap{min,max}`, keeping
both of the `Fill`'s own bounds including its `min`; in the surface
component this degenerate `Wrap` governs the child constraint (both bounds
padding-adjusted and clamped at zero) when no parent-provided length
exists. -/
theorem fill_degenerates_unbounded_parent (mn mx : Option Int)
    (paddingPx childLen : Int) :
    (DimensionValue.Fill mn mx).merge (.Wrap none none) = .Wrap mn mx ∧
    (surfaceAxis paddingPx (.Fill mn mx) (.Wrap none none) childLen).1
      = .Wrap (mn.map fun m => max (pxSub m (pxMulI paddingPx 2)) 0)
          (mx.map fun m => max (pxSub m (pxMulI paddingPx 2)) 0) :=
  ⟨rfl, rfl⟩

/-- Claim C4: the padding-adjusted child constraint of a surface whose
effective constraint is `Fixed(w)` equals `Fixed(max(w - 2p, 0))` exactly
(no `i32` wrap) for lengths in the valid range; and unconditionally, every
length in any child constraint the surface computes, and every final
surface length, is clamped at zero and hence never negative. -/
theorem padding_clamped_nonneg (w p : Int) (parentAxis : DimensionValue) :
    (0 ≤ w → w < 2 ^ 31 → 0 ≤ p → 2 * p < 2 ^ 31 →
      childConstraintAxis (pxMulI p 2) parentAxis (.Fixed w)
        = .Fixed (max (w - 2 * p) 0) ∧ 0 ≤ max (w - 2 * p) 0) ∧
    (∀ (pad2 : Int) (eff : DimensionValue),
      dvNonneg (childConstraintAxis pad2 parentAxis eff) = true) ∧
    (∀ (content : Int) (eff : DimensionValue), 0 ≤ finalAxis content eff) := by
  refine ⟨fun h1 h2 h3 h4 => ?_, fun pad2 eff => ?_, fun content eff => le_max_right _ 0⟩
  · have hp2 : pxMulI p 2 = 2 * p := by
      unfold pxMulI
      rw [wrap32_eq_self (p * 2) (by omega) (by omega)]
      ring
    have hsub : pxSub w (2 * p) = w - 2 * p := by
      unfold pxSub
      exact wrap32_eq_self _ (by omega) (by omega)
    exact ⟨by simp [childConstraintAxis, hp2, hsub], le_max_right _ 0⟩
  · cases eff with
    | Fixed v => simp [childConstraintAxis, dvNonneg, le_max_right]
    | Wrap mn mx =>
        cases mn <;> cases mx <;> simp [childConstraintAxis, dvNonneg, le_max_right]
    | Fill mn mx =>
        cases hfb : fillParentBound parentAxis <;> cases mx <;>
          simp [childConstraintAxis, dvNonneg, hfb, le_max_right]

theorem padding_clamped_nonneg_witness :
    childConstraintAxis (pxMulI 10 2) (.Wrap none none) (.Fixed 70)
      = .Fixed (max (70 - 2 * 10) 0) ∧ (0 : Int) ≤ max (70 - 2 * 10 : Int) 0 :=
  (padding_clamped_nonneg 70 10 (.Wrap none none)).1 (by decide) (by decide)
    (by decide) (by decide)

/-- Claim C5: a surface with intrinsic width `Fixed(400)`, height
`Fixed(70)` and padding `10` physical pixels, under any parent-offered
constraint, offers its single child the constraint `Fixed(380) × Fixed(50)`
(hence at most `380 × 50`), and returns final size exactly `400 × 70`
whatever the child's measured size; the child's own `Wrap{None,None}`
constraint merged with the offered constraint is measured against
`Wrap` bounded by `380 × 50`. -/
theorem surface_fixed_400x70_pad10 (parent : Constraint) (cw ch : Int) :
    surfaceMeasure 10 ⟨.Fixed 400, .Fixed 70⟩ parent ⟨cw, ch⟩
      = (⟨.Fixed 380, .Fixed 50⟩, ⟨400, 70⟩) ∧
    (Constraint.mk (.Wrap none none) (.Wrap none none)).merge
        ⟨.Fixed 380, .Fixed 50⟩
      = ⟨.Wrap none (some 380), .Wrap none (some 50)⟩ :=
  ⟨rfl, rfl⟩

theorem isLeftPress_iff (e : CursorEvent) :
    isLeftPress e = true ↔ e.content = .Pressed .Left := by
  cases e with
  | mk t c =>
    cases c with
    | PointerMoved x y => simp [isLeftPress]
    | PointerLeft => simp [isLeftPress]
    | Pressed k => cases k <;> simp [isLeftPress]
    | Released k => simp [isLeftPress]
    | Scrolled dx dy => simp [isLeftPress]

/-- Claim C6: the switch's state handler receives the whole frame's event
sequences with no hit-testing: its emitted `on_toggle` calls are
independent of the cursor position (and of the keyboard events); whenever
the frame's cursor events contain a `Pressed(Left)`, `on_toggle(!checked)`
is invoked exactly once, and with no `Pressed(Left)` it is not invoked. -/
theorem switch_handler_no_hit_testing (checked : Bool)
    (stOpt : Option SwitchState) (nowMs : ℚ) (pos pos2 : Option (Int × Int))
    (events : List CursorEvent) (kb kb2 : List Int) :
    (switchStateHandler checked stOpt nowMs pos events kb).2
      = (switchStateHandler checked stOpt nowMs pos2 events kb2).2 ∧
    ((∃ e ∈ events, e.content = .Pressed .Left) →
      (switchStateHandler checked stOpt nowMs pos events kb).2 = [!checked]) ∧
    ((∀ e ∈ events, e.content ≠ .Pressed .Left) →
      (switchStateHandler checked stOpt nowMs pos events kb).2 = []) := by
  refine ⟨rfl, fun hex => ?_, fun hall => ?_⟩
  · obtain ⟨e, he, hc⟩ := hex
    have hmem : e ∈ events.filter isLeftPress :=
      List.mem_filter.mpr ⟨he, (isLeftPress_iff e).mpr hc⟩
    have hlen : 0 < (events.filter isLeftPress).length :=
      List.length_pos_of_mem hmem
    simp [switchStateHandler, switchToggleCalls, if_pos hlen]
  · have hnil : events.filter isLeftPress = [] := by
      rw [List.filter_eq_nil_iff]
      intro a ha
      rw [isLeftPress_iff a]
      exact hall a ha
    simp [switchStateHandler, switchToggleCalls, hnil]

theorem switch_handler_no_hit_testing_witness :
    (switchStateHandler false none 0 none
      [⟨0, .Pressed .Left⟩, ⟨1, .PointerLeft⟩] []).2 = [!false] :=
  (switch_handler_no_hit_testing false none 0 none (some (999, 999))
      [⟨0, .Pressed .Left⟩, ⟨1, .PointerLeft⟩] [] []).2.1
    ⟨⟨0, .Pressed .Left⟩, by decide, rfl⟩

theorem CursorQueue.pushAll_events (s : CursorQueue) (es : List CursorEvent) :
    (s.pushAll es).events = s.events ++ es := by
  induction es generalizing s with
  | nil => simp [CursorQueue.pushAll]
  | cons e rest ih =>
      show (CursorQueue.pushAll (s.pushEvent e) rest).events
        = s.events ++ (e :: rest)
      rw [ih]
      simp [CursorQueue.pushEvent]

/-- Claim C7: the event queue is drained, not peeked: the events `compute`
receives in frame N+1 are exactly the events pushed after frame N's
`take_events`, so an event delivered in frame N that is not among the
newly pushed ones never reappears in frame N+1's sequence. -/
theorem taken_events_not_redelivered (s : CursorQueue)
    (newEvents : List CursorEvent) :
    ((s.takeEvents.2.pushAll newEvents).takeEvents).1 = newEvents ∧
    (∀ e ∈ s.takeEvents.1, e ∉ newEvents →
      e ∉ ((s.takeEvents.2.pushAll newEvents).takeEvents).1) := by
  have h : ((s.takeEvents.2.pushAll newEvents).takeEvents).1 = newEvents := by
    simp [CursorQueue.takeEvents, CursorQueue.pushAll_events]
  exact ⟨h, fun e _ hne => by rw [h]; exact hne⟩

theorem taken_events_not_redelivered_witness :
    (⟨0, .Pressed .Left⟩ : CursorEvent) ∉
      (((CursorQueue.mk [⟨0, .Pressed .Left⟩]).takeEvents.2.pushAll
        [⟨5, .PointerLeft⟩]).takeEvents).1 :=
  (taken_events_not_redelivered ⟨[⟨0, .Pressed .Left⟩]⟩ [⟨5, .PointerLeft⟩]).2
    ⟨0, .Pressed .Left⟩ (by decide) (by decide)

theorem ratTruncToInt_intCast (n : Int) : ratTruncToInt ((n : Int) : ℚ) = n := by
  unfold ratTruncToInt
  rw [Rat.num_intCast, Rat.den_intCast]
  simp [Nat.div_one]
  exact Int.sign_mul_abs n

/-- Claim C8 counterexample: two frames with identical screen size, cursor
position, cursor events and keyboard events, and identical embedded shared
state, but run 150 ms apart while a toggle animation is in flight, draw
the switch thumb at different positions: the draw stream is not determined
by the four listed inputs alone. -/
theorem switch_stream_differs_across_time :
    (switchFrame switchArgsAt0 (some switchStateAt0) 0 none [] []).1
      ≠ (switchFrame switchArgsAt0 (some switchStateAt0) 150 none [] []).1 := by
  have hts : switchThumbSizePx
      { checked := true, widthPx := 52, heightPx := 32, thumbPaddingPx := 3 }
      = 26 := by decide
  have hm : (surfaceMeasure 0 ⟨.Fixed 26, .Fixed 26⟩
      ⟨.Wrap none none, .Wrap none none⟩ ⟨0, 0⟩).2 = ⟨26, 26⟩ := by decide
  have h1 : pxSub (pxSub 52 26) 3 = 23 := by decide
  have h2 : pxDivI (pxSub 32 26) 2 = 3 := by decide
  have hsm : ∀ (q : ℚ) (ltt : Option ℚ),
      switchMeasureStream switchArgsAt0 (some ⟨true, q, ltt⟩)
        = { trackChecked := true,
            thumbX := ratTruncToInt
              (((3 : Int) : ℚ) + (((23 : Int) : ℚ) - ((3 : Int) : ℚ)) * q),
            thumbY := 3, thumbW := 26, thumbH := 26, selfW := 52,
            selfH := 32 } := by
    intro q ltt
    simp [switchMeasureStream, switchArgsAt0, hts, hm, h1, h2]
  have hu0 : switchUpdatedState switchStateAt0 0 = ⟨true, 0, some 0⟩ := by
    simp [switchUpdatedState, switchStateAt0, animationDurationMs, min_def]
  have hu150 : switchUpdatedState switchStateAt0 150 = ⟨true, 1, some 0⟩ := by
    simp [switchUpdatedState, switchStateAt0, animationDurationMs, min_def]
  have e0 : (switchFrame switchArgsAt0 (some switchStateAt0) 0 none [] []).1.thumbX
      = 3 := by
    show (switchMeasureStream switchArgsAt0
      (some (switchUpdatedState switchStateAt0 0))).thumbX = 3
    rw [hu0, hsm 0 (some 0)]
    have ha : ((3 : Int) : ℚ) + (((23 : Int) : ℚ) - ((3 : Int) : ℚ)) * 0
        = ((3 : Int) : ℚ) := by push_cast; ring
    rw [ha, ratTruncToInt_intCast]
  have e150 : (switchFrame switchArgsAt0 (some switchStateAt0) 150 none
      [] []).1.thumbX = 23 := by
    show (switchMeasureStream switchArgsAt0
      (some (switchUpdatedState switchStateAt0 150))).thumbX = 23
    rw [hu150, hsm 1 (some 0)]
    have ha : ((3 : Int) : ℚ) + (((23 : Int) : ℚ) - ((3 : Int) : ℚ)) * 1
        = ((23 : Int) : ℚ) := by push_cast; ring
    rw [ha, ratTruncToInt_intCast]
  intro heq
  have hx := congrArg SwitchDrawStream.thumbX heq
  rw [e0, e150] at hx
  exact absurd hx (by decide)

theorem switchUpdatedState_idem (st : SwitchState) (nowMs : ℚ) :
    switchUpdatedState (switchUpdatedState st nowMs) nowMs
      = switchUpdatedState st nowMs := by
  cases h : st.lastToggleTimeMs with
  | none => simp [switchUpdatedState, h]
  | some t => simp [switchUpdatedState, h]

/-- Claim C8 (amended): re-running `compute` with an unchanged
tree-construction closure, unchanged inputs and an unchanged frame
timestamp yields a bit-identical draw stream, even though the first run
mutated the shared animation progress (the handler recomputes it
idempotently from the recorded toggle time). -/
theorem switch_stream_rerun_deterministic (args : SwitchArgsM)
    (stOpt : Option SwitchState) (nowMs : ℚ) (pos : Option (Int × Int))
    (events : List CursorEvent) (kb : List Int) :
    (switchFrame args (switchFrame args stOpt nowMs pos events kb).2.1 nowMs
        pos events kb).1
      = (switchFrame args stOpt nowMs pos events kb).1 := by
  cases stOpt with
  | none => rfl
  | some st => simp [switchFrame, switchStateHandler, switchUpdatedState_idem]

/-- Claim C9: `Px::abs` returns `max(p, 0)` cast to `u32`: on a negative
value it returns `0`, not the magnitude, despite the name; non-negative
values pass through unchanged. -/
theorem px_abs_clamps_negative (p : Int) :
    (p < 0 → pxAbs p = 0 ∧ pxAbs p ≠ p.natAbs) ∧
    (0 ≤ p → (pxAbs p : Int) = p) := by
  constructor
  · intro h
    have h0 : max p 0 = 0 := max_eq_right h.le
    have hpos : 0 < p.natAbs := Int.natAbs_pos.mpr (by omega)
    constructor
    · simp [pxAbs, h0]
    · simp [pxAbs, h0]
      omega
  · intro h
    simp [pxAbs, max_eq_left h, Int.toNat_of_nonneg h]

theorem px_abs_clamps_negative_witness :
    pxAbs (-5) = 0 ∧ pxAbs (-5) ≠ Int.natAbs (-5) :=
  (px_abs_clamps_negative (-5)).1 (by decide)

/-- Claim C10: the text component's measurement callback is total on the
success path: for every shaping collaborator, every parent-constraint
shape on either axis and every text string it returns `Ok`, never a
`MeasurementError`, so a text leaf alone cannot fail a frame's
measurement. -/
theorem text_measure_total
    (shaper : String → Option Int → Option Int → Int × Int)
    (parentConstraint : Constraint) (txt : String) :
    (∃ d, textMeasure shaper parentConstraint txt = Except.ok d) ∧
    ∀ err : MeasurementError,
      textMeasure shaper parentConstraint txt ≠ Except.error err :=
  ⟨⟨_, rfl⟩, fun _ h => by simp [textMeasure] at h⟩

end Tessera
